import Mathlib

/-!
Verification of the Lunix:TNG sensor-network device driver.

The development shallowly embeds the driver's components:

* the character-device layer (`lunix-chrdev.c`: open, cached-state refresh,
  staleness check, blocking read protocol);
* the per-sensor measurement store (`lunix-sensors`: `lunix_sensor_update`);
* the incremental XMesh frame parser (`lunix-protocol`:
  `lunix_protocol_received_buf` and `lunix_protocol_update_sensors`);
* the battery entry of the raw-to-physical lookup tables
  (`mk-lunix-lookup`: `uint16_to_batt`).

Machine integers are modelled as `Nat`/`Int` (raw samples fit in 16 bits and
timestamps in 32, so no arithmetic here can wrap); fallible operations return
`Option`; the blocking read loop is driven by an explicit finite schedule of
wait outcomes, with "still blocked" as its own result.
-/

/-! ## Global constants (lunix.h, lunix-protocol.h, errno) -/

/-- Number of measurement kinds (`N_LUNIX_MSR` in `lunix.h`): BATT, TEMP, LIGHT. -/
def N_LUNIX_MSR : Nat := 3

/-- Default sensor count (`LUNIX_SENSOR_CNT` in `lunix.h`). -/
def LUNIX_SENSOR_CNT : Nat := 16

/-- Magic number stamped on measurement pages (`LUNIX_MSR_MAGIC`). -/
def LUNIX_MSR_MAGIC : Nat := 0xF00DF00D

/-- Linux errno value `EAGAIN` (the driver returns `-EAGAIN` for "no new data"). -/
def EAGAIN : Int := 11

/-- Working-buffer capacity of the protocol parser (`MAX_PACKET_LEN`). -/
def MAX_PACKET_LEN : Nat := 300

/-- Offset of the packet signature byte (AM type) in the packet buffer. -/
def PACKET_SIGNATURE_OFFSET : Nat := 4

/-- Offset of the node id in the packet buffer. -/
def NODE_OFFSET : Nat := 9

/-- Offset of the battery voltage reference field in the packet buffer. -/
def VREF_OFFSET : Nat := 18

/-- Offset of the temperature field in the packet buffer. -/
def TEMPERATURE_OFFSET : Nat := 20

/-- Offset of the light field in the packet buffer. -/
def LIGHT_OFFSET : Nat := 22

/-! ## Sensor measurement store (lunix-sensors) -/

/-- The three measurement kinds of `enum lunix_msr_enum`. -/
inductive Msr
  | BATT
  | TEMP
  | LIGHT
deriving DecidableEq, BEq

/-- Modelled from the spec: `struct lunix_msr_data_struct` of `lunix.h`
(`lunix.h` itself is present only as documentation, `src/docs/lunix-sensors.md`):
magic word, last-update timestamp (seconds), and the measurement value
(`values[0]`, the only cell the driver uses). -/
structure MsrData where
  magic : Nat
  last_update : Nat
  value : Nat
deriving DecidableEq

/-- Modelled from the spec: the measurement pages of `struct lunix_sensor_struct`
(one `lunix_msr_data_struct` per measurement kind).  The spinlock and wait queue
have no data content; the locking discipline is modelled separately as the event
trace `lunix_sensor_update_trace`. -/
structure SensorStruct where
  battD : MsrData
  tempD : MsrData
  lightD : MsrData
deriving DecidableEq

instance : Inhabited SensorStruct := ⟨⟨⟨0, 0, 0⟩, ⟨0, 0, 0⟩, ⟨0, 0, 0⟩⟩⟩

/-- Accessor corresponding to `s->msr_data[m]` for a valid measurement kind. -/
def SensorStruct.msr (s : SensorStruct) : Msr → MsrData
  | .BATT => s.battD
  | .TEMP => s.tempD
  | .LIGHT => s.lightD

/-- Modelled from the spec: `lunix_sensor_update` of `lunix-sensors.c` (present
only as documentation, `src/docs/lunix-sensors.md` lines 72-100).  Under the
sensor's spinlock it writes the three raw values, re-stamps the magic words, and
stamps all three `last_update` fields with one shared current-time reading
(`ktime_get_real_seconds()`, passed here as `now`), then wakes all waiters. -/
def lunix_sensor_update (_s : SensorStruct) (batt temp light now : Nat) : SensorStruct :=
  { battD := ⟨LUNIX_MSR_MAGIC, now, batt⟩
    tempD := ⟨LUNIX_MSR_MAGIC, now, temp⟩
    lightD := ⟨LUNIX_MSR_MAGIC, now, light⟩ }

/-- Events of one `lunix_sensor_update` call, in program order. -/
inductive SensorUpdEvent
  | acquireLock
  | writeRaw (m : Msr)
  | writeTimestamp (m : Msr)
  | releaseLock
  | wakeWaiters
deriving DecidableEq, BEq

/-- Modelled from the spec: the program-order event trace of
`lunix_sensor_update` per `src/docs/lunix-sensors.md` lines 83-100: spin_lock;
writes of the three values and the three timestamps; spin_unlock; then
`wake_up_interruptible` on the sensor's wait queue. -/
def lunix_sensor_update_trace : List SensorUpdEvent :=
  [ .acquireLock,
    .writeRaw .BATT, .writeRaw .TEMP, .writeRaw .LIGHT,
    .writeTimestamp .BATT, .writeTimestamp .TEMP, .writeTimestamp .LIGHT,
    .releaseLock, .wakeWaiters ]

/-! ## Character device state (lunix-chrdev.c) -/

/-- `struct lunix_chrdev_state_struct`: measurement type, the targeted sensor
(kept here as its index into `lunix_sensors`; the C code stores the pointer
`&lunix_sensors[sensor_num]`), cache limit, cached timestamp, and the rendered
text cache.  The per-state semaphore has no data content. -/
structure ChrdevState where
  type : Nat
  sensor_num : Nat
  buf_lim : Nat
  buf_timestamp : Nat
  buf_data : String
deriving DecidableEq

/-- Decodes a measurement-type number into a valid kind; `none` for
`type >= N_LUNIX_MSR`, which in the C code means an out-of-bounds
`msr_data[state->type]` access (and the `switch` default of `-EINVAL`). -/
def toMsr : Nat → Option Msr
  | 0 => some .BATT
  | 1 => some .TEMP
  | 2 => some .LIGHT
  | _ => none

/-- `lunix_chrdev_state_needs_refresh` (`lunix-chrdev.c` lines 47-58): compares
the cached timestamp with `sensor->msr_data[state->type]->last_update`.
Returns `none` when `state.type` is not a valid kind (in C that dereference is
out of bounds). -/
def lunix_chrdev_state_needs_refresh (state : ChrdevState) (sensor : SensorStruct) :
    Option Bool :=
  (toMsr state.type).map fun m =>
    state.buf_timestamp != (sensor.msr m).last_update

/-- The `"%03ld"` conversion of `snprintf` at a nonnegative argument: decimal
digits zero-padded on the left to a minimum width of 3.  The driver only passes
`abs(converted_value % 1000) <= 999`, so the first branch is the live one. -/
def fmt03 (n : Nat) : String :=
  if n < 1000 then
    String.mk [Nat.digitChar (n / 100), Nat.digitChar (n / 10 % 10), Nat.digitChar (n % 10)]
  else Nat.repr n

/-- The `snprintf(buf, LUNIX_CHRDEV_BUFSZ, "%ld.%03ld\n", v / 1000, abs(v % 1000))`
call of `lunix_chrdev_state_update` (`lunix-chrdev.c` lines 114-115).  C's `/`
and `%` on `long` truncate toward zero (`Int.tdiv` / `Int.tmod`); `abs` is
`Int.natAbs`.  Every value rendered by the driver is far shorter than
`LUNIX_CHRDEV_BUFSZ`, so `snprintf` truncation never occurs and the return value
is the string length. -/
def render (v : Int) : String :=
  Int.repr (Int.tdiv v 1000) ++ "." ++ fmt03 (Int.tmod v 1000).natAbs ++ "\n"

/-- `lunix_chrdev_state_update` (`lunix-chrdev.c` lines 69-118), parameterized
by the lookup tables (`lookup_voltage` / `lookup_temperature` / `lookup_light`
merged into one function `lookup` over the kind; their boot-time construction is
out of scope).  Returns `-EAGAIN` when no new data is available, else reads the
raw value and timestamp under the sensor spinlock, updates the cached timestamp,
converts, and renders into the cache, returning 0.  For an invalid measurement
type the result is `none`: in C that path performs an out-of-bounds
`msr_data[state->type]` access in `lunix_chrdev_state_needs_refresh` before the
`switch` default can return `-EINVAL`. -/
def lunix_chrdev_state_update (lookup : Msr → Nat → Int) (state : ChrdevState)
    (sensor : SensorStruct) : Option (Int × ChrdevState) :=
  match toMsr state.type with
  | none => none
  | some m =>
    if state.buf_timestamp = (sensor.msr m).last_update then
      some (-EAGAIN, state)
    else
      let raw := (sensor.msr m).value
      let last := (sensor.msr m).last_update
      let txt := render (lookup m raw)
      some (0, { state with buf_timestamp := last, buf_data := txt, buf_lim := txt.length })

/-- `lunix_chrdev_open` (`lunix-chrdev.c` lines 128-174): splits the minor
number into measurement type (`minor % 8`) and sensor number (`minor / 8`),
rejects an invalid measurement type with `-EINVAL` (`none`), and otherwise
allocates and initializes the private state.  `nonseekable_open` cannot fail and
allocation failure (`-ENOMEM`) is a resource condition outside this model. -/
def lunix_chrdev_open (minor : Nat) : Option ChrdevState :=
  if N_LUNIX_MSR ≤ minor % 8 then none
  else some { type := minor % 8, sensor_num := minor / 8, buf_lim := 0,
              buf_timestamp := 0, buf_data := "" }

/-! ## The blocking read protocol (lunix-chrdev.c, lunix_chrdev_read)

The read path can block on the sensor's wait queue.  It is modelled with an
explicit finite schedule: `lock0Intr` is whether the initial
`down_interruptible` is interrupted, and each `WaitIter` describes one pass
through the wait loop (whether `wait_event_interruptible` was interrupted,
whether the reacquisition of the semaphore was interrupted, and the sensor
contents observed on the retry).  A run that exhausts the schedule while the
update still reports `-EAGAIN` is `blockedRes` — the call has not returned. -/

/-- One iteration of the wait loop of `lunix_chrdev_read`. -/
structure WaitIter where
  waitIntr : Bool
  relockIntr : Bool
  sensor : SensorStruct

/-- Result of the refresh loop at the top of `lunix_chrdev_read`. -/
inductive LoopOut
  | updated (st : ChrdevState)
  | blocked
  | intr
  | invalid

/-- The `while (lunix_chrdev_state_update(state) == -EAGAIN)` loop of
`lunix_chrdev_read` (`lunix-chrdev.c` lines 225-235): on `-EAGAIN` the state
lock is released, the caller sleeps on `sensor->wq` (interruptibly), reacquires
the lock (interruptibly) and retries the update against the sensor contents it
then observes. -/
def readLoop (lookup : Msr → Nat → Int) :
    List WaitIter → ChrdevState → SensorStruct → LoopOut
  | [], state, sensor =>
    match lunix_chrdev_state_update lookup state sensor with
    | none => .invalid
    | some (r, st) => if r = -EAGAIN then .blocked else .updated st
  | it :: rest, state, sensor =>
    match lunix_chrdev_state_update lookup state sensor with
    | none => .invalid
    | some (r, st) =>
      if r = -EAGAIN then
        if it.waitIntr then .intr
        else if it.relockIntr then .intr
        else readLoop lookup rest state it.sensor
      else .updated st

/-- Outcome of one `lunix_chrdev_read` call.  `success` carries the bytes
copied to the caller, the state after the call and the new file position;
`eofRes` is return value 0; `intrRes` is `-ERESTARTSYS`; `faultRes` is
`-EFAULT` (copy_to_user failed); `blockedRes` means the call has not returned
within the supplied schedule; `invalidRes` is the out-of-bounds path for an
invalid measurement type, unreachable from `lunix_chrdev_open`. -/
inductive ReadOut
  | success (delivered : List Char) (st : ChrdevState) (newPos : Nat)
  | eofRes
  | intrRes
  | faultRes
  | blockedRes
  | invalidRes
deriving DecidableEq

/-- The serving tail of `lunix_chrdev_read` (`lunix-chrdev.c` lines 238-267):
`available_bytes = buf_lim - *f_pos` (clamped at 0, which is what `Nat`
subtraction does), `cnt` is capped by it, 0 remaining bytes return 0 (end of
file, before any copy), otherwise the bytes are copied to the caller (`copyOk`
is whether `copy_to_user` succeeds, `-EFAULT` if not), the position advances,
and it auto-rewinds to 0 once it reaches `buf_lim`. -/
def serveBytes (copyOk : Bool) (st : ChrdevState) (f_pos cnt : Nat) : ReadOut :=
  if min cnt (st.buf_lim - f_pos) = 0 then .eofRes
  else if copyOk then
    .success ((st.buf_data.data.drop f_pos).take (min cnt (st.buf_lim - f_pos))) st
      (if st.buf_lim ≤ f_pos + min cnt (st.buf_lim - f_pos) then 0
       else f_pos + min cnt (st.buf_lim - f_pos))
  else .faultRes

/-- `lunix_chrdev_read` (`lunix-chrdev.c` lines 205-268).  After the initial
interruptible lock acquisition, a read starting at file position 0 first runs
the refresh loop; the tail (`serveBytes`) then serves from the cache. -/
def lunix_chrdev_read (lookup : Msr → Nat → Int) (lock0Intr : Bool)
    (iters : List WaitIter) (copyOk : Bool) (state : ChrdevState)
    (sensor : SensorStruct) (f_pos cnt : Nat) : ReadOut :=
  if lock0Intr then .intrRes
  else
    match (if f_pos = 0 then readLoop lookup iters state sensor else .updated state) with
    | .invalid => .invalidRes
    | .blocked => .blockedRes
    | .intr => .intrRes
    | .updated st => serveBytes copyOk st f_pos cnt

/-! ## Battery lookup table entry (mk-lunix-lookup) -/

/-- Modelled from the spec: `uint16_to_batt` of `mk-lunix-lookup.c` (present
only as documentation, `src/docs/mx-lunix-lookup.md` lines 9-27): for a nonzero
raw ADC reading, `d = 1.223 * (1023.0 / value)` volts and the returned
millivolt value is `(long)(d * 1000)`.  The real-valued computation is exact in
`ℚ`; the C cast to `long` truncates toward zero, which for this nonnegative
quantity is `Int.floor`.  (The double-precision evaluation differs from the
rational one by far less than the distance of any table entry to an integer
boundary, so the truncated results agree.) -/
def uint16_to_batt (value : Nat) : Int :=
  if value = 0 then 0
  else Int.floor (((1223 : ℚ) / 1000 * (1023 / (value : ℚ))) * 1000)

/-! ## XMesh protocol parser (lunix-protocol)

`lunix-protocol.c` is present in the repository only as its documentation
(`src/unnamed/part_003`), so the parser is modelled from that description and
from the spec's frame-layout section: stages SEEK_START .. SEEK_END in order;
byte-stuffing (`0x7D` escapes the next byte, stored with bit `0x20` flipped)
applies to every field after the start byte up to and including the CRC; the
payload-length byte sets the byte count of the payload stage; the working
buffer holds `MAX_PACKET_LEN` bytes and hitting that capacity resets the parser
silently.  One `lunix_protocol_received_buf` call walks the stage handlers in
order, so after a completed or aborted packet the remaining bytes of that call's
buffer are not examined (the state machine is back at SEEK_START, whose handler
already ran); byte-for-byte this is the step function `step1` below, with the
rest of the chunk dropped after an emit or abort. -/

/-- The nine parser stages (`SEEKING_START_BYTE` .. `SEEKING_END_BYTE`). -/
inductive Stage
  | seekStart
  | packetType
  | destAddr
  | amType
  | amGroup
  | payloadLen
  | payload
  | crc
  | seekEnd
deriving DecidableEq, BEq

/-- Modelled from the spec: `struct lunix_protocol_state_struct`.  The packet
buffer is the list of bytes stored so far, so the C field `pos` is its length
(`ProtoState.pos`). -/
structure ProtoState where
  stage : Stage
  bytes_read : Nat
  bytes_to_read : Nat
  next_is_special : Bool
  payload_length : Nat
  packet : List Nat
deriving DecidableEq

/-- The C field `state->pos`: the write position in the packet buffer. -/
def ProtoState.pos (s : ProtoState) : Nat := s.packet.length

/-- `lunix_protocol_init`: initial parser state, also the state after every
complete or aborted packet. -/
def protoInit : ProtoState :=
  { stage := .seekStart, bytes_read := 0, bytes_to_read := 1,
    next_is_special := false, payload_length := 0, packet := [] }

/-- Whether a stage reads stored packet bytes (all stages strictly between
`seekStart` and `seekEnd`). -/
def Stage.isData : Stage → Bool
  | .seekStart => false
  | .seekEnd => false
  | _ => true

/-- Stage transition taken when the current stage has read all its bytes
(`set_state` calls in `lunix_protocol_received_buf`); the payload-length stage
sets the byte count of the payload stage from the just-stored length byte, and
a zero-length payload falls through to the CRC stage within the same call. -/
def afterStore (s : ProtoState) : ProtoState :=
  if s.bytes_read < s.bytes_to_read then s
  else
    match s.stage with
    | .packetType => { s with stage := .destAddr, bytes_read := 0, bytes_to_read := 2 }
    | .destAddr => { s with stage := .amType, bytes_read := 0, bytes_to_read := 1 }
    | .amType => { s with stage := .amGroup, bytes_read := 0, bytes_to_read := 1 }
    | .amGroup => { s with stage := .payloadLen, bytes_read := 0, bytes_to_read := 1 }
    | .payloadLen =>
      if s.payload_length = 0 then { s with stage := .crc, bytes_read := 0, bytes_to_read := 2 }
      else { s with stage := .payload, bytes_read := 0, bytes_to_read := s.payload_length }
    | .payload => { s with stage := .crc, bytes_read := 0, bytes_to_read := 2 }
    | .crc => { s with stage := .seekEnd, bytes_read := 0, bytes_to_read := 1 }
    | _ => s

/-- Stores one (already unescaped) byte into the packet buffer and advances the
stage machinery: `state->packet[state->pos++] = v; state->bytes_read++`, the
payload-length stage additionally records `v` in `state->payload_length`, and
the stage transition fires when the stage's byte count is reached. -/
def storeByte (s : ProtoState) (v : Nat) : ProtoState :=
  afterStore
    { s with
      packet := s.packet ++ [v],
      bytes_read := s.bytes_read + 1,
      payload_length := if s.stage = .payloadLen then v else s.payload_length,
      next_is_special := false }

/-- What one byte of input did to the parser: ordinary progress, a completed
packet (handed to `lunix_protocol_update_sensors`), or a silent reset. -/
inductive StepOut
  | cont
  | emit (packet : List Nat)
  | abort
deriving DecidableEq

/-- One loop iteration of `lunix_protocol_parse_state` for the data stages:
first the capacity check (`state->pos == MAX_PACKET_LEN` forces a silent reset),
then byte-stuffing: a pending escape stores the byte with bit `0x20` flipped, a
`0x7D` marks the next byte escaped and is not itself stored, anything else is
stored as is. -/
def dataStep (s : ProtoState) (b : Nat) : ProtoState × StepOut :=
  if s.pos = MAX_PACKET_LEN then (protoInit, .abort)
  else if s.next_is_special then (storeByte s (b ^^^ 0x20), .cont)
  else if b = 0x7D then ({ s with next_is_special := true }, .cont)
  else (storeByte s b, .cont)

/-- One byte of input against the current stage: `seekStart` scans for `0x7E`
and stores it; the data stages run `dataStep`; `seekEnd` emits the assembled
packet on a matching `0x7E` and resets unconditionally. -/
def step1 (s : ProtoState) (b : Nat) : ProtoState × StepOut :=
  match s.stage with
  | .seekStart =>
    if b = 0x7E then
      ({ s with stage := .packetType, bytes_read := 0, bytes_to_read := 1,
                packet := s.packet ++ [b] }, .cont)
    else (s, .cont)
  | .seekEnd =>
    if b = 0x7E then (protoInit, .emit s.packet) else (protoInit, .abort)
  | _ => dataStep s b

/-- Modelled from the spec: `lunix_protocol_received_buf` (documented in
`src/unnamed/part_003` lines 206-243).  Processes one received buffer byte by
byte through the stage handlers; a completed packet is handed to
`lunix_protocol_update_sensors` (returned here as the emitted packet) and, like
an aborted packet, ends the call's processing with the state machine reset. -/
def lunix_protocol_received_buf : ProtoState → List Nat → ProtoState × List (List Nat)
  | s, [] => (s, [])
  | s, b :: rest =>
    match step1 s b with
    | (s2, .cont) => lunix_protocol_received_buf s2 rest
    | (s2, .emit p) => (s2, [p])
    | (s2, .abort) => (s2, [])

/-- A sequence of `lunix_protocol_received_buf` calls (one per received chunk),
collecting every packet handed to `lunix_protocol_update_sensors`. -/
def feedAll : ProtoState → List (List Nat) → ProtoState × List (List Nat)
  | s, [] => (s, [])
  | s, c :: rest =>
    let r := lunix_protocol_received_buf s c
    let r2 := feedAll r.1 rest
    (r2.1, r.2 ++ r2.2)

/-- Runs `step1` over a byte list as long as every step is ordinary progress;
`none` as soon as a step emits or aborts.  Proof device for relating chunked
and whole-buffer feeding. -/
def runClean : ProtoState → List Nat → Option ProtoState
  | s, [] => some s
  | s, b :: rest =>
    match step1 s b with
    | (s2, .cont) => runClean s2 rest
    | _ => none

/-- `uint16_from_packet`: little-endian 16-bit read at a packet offset. -/
def uint16_from_packet (p : List Nat) (off : Nat) : Nat :=
  p.getD off 0 + 256 * p.getD (off + 1) 0

/-- Modelled from the spec: `lunix_protocol_update_sensors` (documented in
`src/unnamed/part_003` lines 70-100).  If the packet signature byte is `0x0B`
(sensor data), extracts node id, battery, temperature and light; a node id
within `[1, lunix_sensor_cnt]` (the length of the sensor array) updates
`lunix_sensors[nodeid - 1]` via `lunix_sensor_update`, anything else is
discarded with only a diagnostic.  `now` is the current-time reading passed
through to `lunix_sensor_update`. -/
def lunix_protocol_update_sensors (packet : List Nat) (sensors : List SensorStruct)
    (now : Nat) : List SensorStruct :=
  if packet.getD PACKET_SIGNATURE_OFFSET 0 = 0x0B then
    let nodeid := uint16_from_packet packet NODE_OFFSET
    let batt := uint16_from_packet packet VREF_OFFSET
    let temp := uint16_from_packet packet TEMPERATURE_OFFSET
    let light := uint16_from_packet packet LIGHT_OFFSET
    if 1 ≤ nodeid ∧ nodeid ≤ sensors.length then
      sensors.set (nodeid - 1)
        (lunix_sensor_update (sensors.getD (nodeid - 1) default) batt temp light now)
    else sensors
  else sensors

/-- The (nodeId, batt, temp, light) tuple `lunix_protocol_update_sensors`
extracts from a completed packet. -/
def extractTuple (packet : List Nat) : Nat × Nat × Nat × Nat :=
  (uint16_from_packet packet NODE_OFFSET,
   uint16_from_packet packet VREF_OFFSET,
   uint16_from_packet packet TEMPERATURE_OFFSET,
   uint16_from_packet packet LIGHT_OFFSET)

/-! ## Frames on the wire (statement apparatus for well-formedness claims) -/

/-- Byte-stuffing of one logical byte for the wire: `0x7E` and `0x7D` are sent
as `0x7D` followed by the byte with bit `0x20` flipped, anything else as
itself. -/
def esc (b : Nat) : List Nat :=
  if b = 0x7E ∨ b = 0x7D then [0x7D, b ^^^ 0x20] else [b]

/-- Byte-stuffing of a byte sequence. -/
def escBody : List Nat → List Nat
  | [] => []
  | b :: t => esc b ++ escBody t

/-- The logical fields of one XMesh frame (before byte-stuffing): packet type,
destination address, AM type, AM group, payload, CRC. -/
structure SensorFrame where
  ptype : Nat
  dest1 : Nat
  dest2 : Nat
  amtype : Nat
  amgroup : Nat
  payload : List Nat
  crc1 : Nat
  crc2 : Nat
deriving DecidableEq

/-- The frame without its trailing end marker, as sent on the wire: start byte,
then every field byte-stuffed. -/
def wireBody (F : SensorFrame) : List Nat :=
  0x7E :: (esc F.ptype ++ esc F.dest1 ++ esc F.dest2 ++ esc F.amtype ++ esc F.amgroup ++
    esc F.payload.length ++ escBody F.payload ++ esc F.crc1 ++ esc F.crc2)

/-- The complete wire encoding of a frame. -/
def wire (F : SensorFrame) : List Nat := wireBody F ++ [0x7E]

/-- The packet buffer the parser assembles from `wire F`: the start byte and
the unescaped field bytes. -/
def decodedPacket (F : SensorFrame) : List Nat :=
  0x7E :: F.ptype :: F.dest1 :: F.dest2 :: F.amtype :: F.amgroup :: F.payload.length ::
    (F.payload ++ [F.crc1, F.crc2])

/-- A well-formed sensor frame: sensor-data signature (AM type `0x0B`), a
payload long enough to hold the light field (offset 22-23 of the packet, so at
least 17 payload bytes), and a payload length that fits the one-byte length
field. -/
def sensorFrameWF (F : SensorFrame) : Prop :=
  F.amtype = 0x0B ∧ 17 ≤ F.payload.length ∧ F.payload.length ≤ 255

instance (F : SensorFrame) : Decidable (sensorFrameWF F) := by
  unfold sensorFrameWF; infer_instance

/-- Concatenation of consecutive chunks of a byte stream. -/
def joinChunks : List (List Nat) → List Nat
  | [] => []
  | c :: rest => c ++ joinChunks rest

/-- Invariant of reachable parser states: the write position never exceeds the
working-buffer capacity, and the packet buffer is empty while scanning for a
start byte. -/
def posInv (s : ProtoState) : Prop :=
  s.pos ≤ MAX_PACKET_LEN ∧ (s.stage = .seekStart → s.packet = [])

/-! ## Helper lemmas -/

theorem toMsr_of_lt {t : Nat} (h : t < N_LUNIX_MSR) : ∃ m, toMsr t = some m := by
  unfold N_LUNIX_MSR at h
  interval_cases t
  · exact ⟨.BATT, rfl⟩
  · exact ⟨.TEMP, rfl⟩
  · exact ⟨.LIGHT, rfl⟩

theorem sensor_update_msr_last (s : SensorStruct) (b t l now : Nat) (m : Msr) :
    ((lunix_sensor_update s b t l now).msr m).last_update = now := by
  cases m <;> rfl

theorem state_update_of_valid (lookup : Msr → Nat → Int) (state : ChrdevState)
    (sensor : SensorStruct) (m : Msr) (hm : toMsr state.type = some m) :
    lunix_chrdev_state_update lookup state sensor =
      (if state.buf_timestamp = (sensor.msr m).last_update then some (-EAGAIN, state)
       else some (0, { state with
          buf_timestamp := (sensor.msr m).last_update,
          buf_data := render (lookup m (sensor.msr m).value),
          buf_lim := (render (lookup m (sensor.msr m).value)).length })) := by
  simp only [lunix_chrdev_state_update, hm]

theorem open_type_valid {minor : Nat} {st : ChrdevState}
    (h : lunix_chrdev_open minor = some st) :
    st.type < N_LUNIX_MSR ∧ st.type = minor % 8 ∧ st.sensor_num = minor / 8 ∧
      st.buf_lim = 0 ∧ st.buf_timestamp = 0 ∧ st.buf_data = "" := by
  unfold lunix_chrdev_open at h
  split at h
  · exact absurd h (by simp)
  · rename_i hlt
    have h2 := Option.some.inj h
    subst h2
    refine ⟨?_, rfl, rfl, rfl, rfl, rfl⟩
    show minor % 8 < N_LUNIX_MSR
    omega

theorem state_update_isSome (lookup : Msr → Nat → Int) (state : ChrdevState)
    (sensor : SensorStruct) (m : Msr) (hm : toMsr state.type = some m) :
    lunix_chrdev_state_update lookup state sensor ≠ none := by
  rw [state_update_of_valid lookup state sensor m hm]
  split <;> simp

theorem state_update_success_wf (lookup : Msr → Nat → Int) (state : ChrdevState)
    (sensor : SensorStruct) (m : Msr) (hm : toMsr state.type = some m)
    {r : Int} {st2 : ChrdevState}
    (h : lunix_chrdev_state_update lookup state sensor = some (r, st2))
    (hr : r ≠ -EAGAIN) : st2.buf_data.data.length = st2.buf_lim := by
  rw [state_update_of_valid lookup state sensor m hm] at h
  split at h
  · cases Option.some.inj h
    exact absurd rfl hr
  · cases Option.some.inj h
    rfl

theorem readLoop_ne_invalid (lookup : Msr → Nat → Int) (iters : List WaitIter)
    (state : ChrdevState) (sensor : SensorStruct) (m : Msr)
    (hm : toMsr state.type = some m) :
    readLoop lookup iters state sensor ≠ .invalid := by
  induction iters generalizing sensor with
  | nil =>
    unfold readLoop
    rcases hupd : lunix_chrdev_state_update lookup state sensor with _ | ⟨r, st2⟩
    · exact absurd hupd (state_update_isSome lookup state sensor m hm)
    · simp only
      split <;> simp
  | cons it rest ih =>
    unfold readLoop
    rcases hupd : lunix_chrdev_state_update lookup state sensor with _ | ⟨r, st2⟩
    · exact absurd hupd (state_update_isSome lookup state sensor m hm)
    · simp only
      split
      · split
        · simp
        · split
          · simp
          · exact ih it.sensor
      · simp

theorem readLoop_out (lookup : Msr → Nat → Int) (iters : List WaitIter)
    (state : ChrdevState) (sensor : SensorStruct) (m : Msr)
    (hm : toMsr state.type = some m) :
    readLoop lookup iters state sensor = .blocked ∨
    readLoop lookup iters state sensor = .intr ∨
    ∃ st2, readLoop lookup iters state sensor = .updated st2 ∧
      st2.buf_data.data.length = st2.buf_lim := by
  induction iters generalizing sensor with
  | nil =>
    unfold readLoop
    rcases hupd : lunix_chrdev_state_update lookup state sensor with _ | ⟨r, st2⟩
    · exact absurd hupd (state_update_isSome lookup state sensor m hm)
    · simp only
      split
      · simp
      · right; right
        exact ⟨st2, rfl, state_update_success_wf lookup state sensor m hm hupd (by assumption)⟩
  | cons it rest ih =>
    unfold readLoop
    rcases hupd : lunix_chrdev_state_update lookup state sensor with _ | ⟨r, st2⟩
    · exact absurd hupd (state_update_isSome lookup state sensor m hm)
    · simp only
      split
      · split
        · simp
        · split
          · simp
          · exact ih it.sensor
      · right; right
        exact ⟨st2, rfl, state_update_success_wf lookup state sensor m hm hupd (by assumption)⟩

theorem serveBytes_ne_invalid (copyOk : Bool) (st : ChrdevState) (f_pos cnt : Nat) :
    serveBytes copyOk st f_pos cnt ≠ .invalidRes := by
  unfold serveBytes
  split
  · simp
  · split <;> simp

theorem serveBytes_outcomes (st : ChrdevState) (f_pos cnt : Nat)
    (hwf : st.buf_data.data.length = st.buf_lim) :
    serveBytes true st f_pos cnt = .eofRes ∨
    ∃ d st2 p, serveBytes true st f_pos cnt = .success d st2 p ∧ d ≠ [] := by
  unfold serveBytes
  by_cases hz : min cnt (st.buf_lim - f_pos) = 0
  · rw [if_pos hz]
    exact Or.inl rfl
  · rw [if_neg hz, if_pos rfl]
    right
    refine ⟨_, _, _, rfl, ?_⟩
    apply List.ne_nil_of_length_pos
    rw [List.length_take, List.length_drop, hwf]
    omega

theorem digitChar_toNat : ∀ d : Nat, d < 10 → (Nat.digitChar d).toNat = 48 + d := by decide

theorem digitChar_isDigit : ∀ d : Nat, d < 10 → (Nat.digitChar d).isDigit = true := by decide

theorem natAbs_tmod (a b : Int) : (Int.tmod a b).natAbs = a.natAbs % b.natAbs := by
  cases a with
  | ofNat m =>
    cases b with
    | ofNat n => rfl
    | negSucc n => rfl
  | negSucc m =>
    cases b with
    | ofNat n =>
      have h : Int.tmod (Int.negSucc m) (Int.ofNat n) = -Int.ofNat ((m + 1) % n) := rfl
      rw [h, Int.natAbs_neg]
      rfl
    | negSucc n =>
      have h : Int.tmod (Int.negSucc m) (Int.negSucc n) =
          -Int.ofNat ((m + 1) % (n + 1)) := rfl
      rw [h, Int.natAbs_neg]
      rfl

theorem tmod_natAbs_lt_1000 (v : Int) : (Int.tmod v 1000).natAbs < 1000 := by
  have h : ((1000 : Int)).natAbs = 1000 := rfl
  rw [natAbs_tmod, h]
  exact Nat.mod_lt _ (by omega)

theorem uint16_to_batt_512 : uint16_to_batt 512 = 2443 := by
  unfold uint16_to_batt
  rw [if_neg (by decide)]
  rw [show ((1223 : ℚ) / 1000 * (1023 / ((512 : Nat) : ℚ)) * 1000) = 1251129 / 512 by norm_num]
  rw [Int.floor_eq_iff]
  constructor <;> norm_num

/-! ## Claims about open, refresh, and the read protocol -/

/-- C1 counterexample: the claim says an invalid sensor index is rejected at
open time (open fails, no session created).  It is not: with the default 16
sensors, minor number 128 encodes measurement kind 0 (valid) and sensor index
16, which is outside the valid range `[0, LUNIX_SENSOR_CNT)`, yet
`lunix_chrdev_open` succeeds and creates a session for the nonexistent sensor —
the open path validates only the measurement type, never the sensor number. -/
theorem C1_invalid_index_not_rejected :
    lunix_chrdev_open 128 =
      some { type := 0, sensor_num := 16, buf_lim := 0, buf_timestamp := 0, buf_data := "" }
    ∧ LUNIX_SENSOR_CNT ≤ 16 := by
  exact ⟨by decide, by decide⟩

/-- C1 (amended): an invalid measurement kind is rejected eagerly at open (open
fails with `-EINVAL` and no session is created); the sensor index is not
validated by open, but every minor number inside the registered device-number
region (`minor < 8 * LUNIX_SENSOR_CNT`, the only minors the kernel routes to
this driver) yields an in-range index; and no invalid-kind/invalid-index error
can originate from a later read on a successfully opened session. -/
theorem C1_open_validation :
    (∀ minor : Nat, N_LUNIX_MSR ≤ minor % 8 → lunix_chrdev_open minor = none)
    ∧ (∀ (minor : Nat) (st : ChrdevState), lunix_chrdev_open minor = some st →
        minor < 8 * LUNIX_SENSOR_CNT → st.sensor_num < LUNIX_SENSOR_CNT)
    ∧ (∀ (minor : Nat) (st : ChrdevState), lunix_chrdev_open minor = some st →
        ∀ (lookup : Msr → Nat → Int) (l0 : Bool) (iters : List WaitIter)
          (copyOk : Bool) (sensor : SensorStruct) (f_pos cnt : Nat),
          lunix_chrdev_read lookup l0 iters copyOk st sensor f_pos cnt ≠ .invalidRes) := by
  refine ⟨?_, ?_, ?_⟩
  · intro minor h
    unfold lunix_chrdev_open
    rw [if_pos h]
  · intro minor st h hm
    obtain ⟨-, -, hsn, -, -, -⟩ := open_type_valid h
    rw [hsn]
    unfold LUNIX_SENSOR_CNT at hm ⊢
    omega
  · intro minor st h lookup l0 iters copyOk sensor f_pos cnt
    obtain ⟨hlt, -, -, -, -, -⟩ := open_type_valid h
    obtain ⟨m, hm⟩ := toMsr_of_lt hlt
    unfold lunix_chrdev_read
    split
    · simp
    · by_cases hf : f_pos = 0
      · rw [if_pos hf]
        cases hloop : readLoop lookup iters st sensor with
        | invalid => exact absurd hloop (readLoop_ne_invalid lookup iters st sensor m hm)
        | blocked => simp
        | intr => simp
        | updated st2 => exact serveBytes_ne_invalid copyOk st2 f_pos cnt
      · rw [if_neg hf]
        exact serveBytes_ne_invalid copyOk st f_pos cnt

/-- C1 witness: minor 3 (kind 3, invalid) is rejected; minor 10 (kind 2,
sensor 1) is inside the registered region and yields index 1 < 16; a read on
the session opened for minor 10 cannot report the invalid-kind path. -/
theorem C1_witness :
    lunix_chrdev_open 3 = none
    ∧ (⟨2, 1, 0, 0, ""⟩ : ChrdevState).sensor_num < LUNIX_SENSOR_CNT
    ∧ lunix_chrdev_read (fun _ raw => (raw : Int)) false [] true ⟨2, 1, 0, 0, ""⟩
        default 0 10 ≠ .invalidRes :=
  ⟨C1_open_validation.1 3 (by decide),
   C1_open_validation.2.1 10 _ (by decide) (by decide),
   C1_open_validation.2.2 10 _ (by decide) _ false [] true default 0 10⟩

/-- C10: refresh (`lunix_chrdev_state_update`) on a session created by a
successful open returns only success (0) or no-new-data (`-EAGAIN`): the
invalid-measurement-type branch (`-EINVAL`, the `none` result here) is
unreachable because open only creates sessions with `type < N_LUNIX_MSR`. -/
theorem C10_refresh_no_einval (minor : Nat) (st : ChrdevState)
    (h : lunix_chrdev_open minor = some st) (lookup : Msr → Nat → Int)
    (sensor : SensorStruct) :
    ∃ r st2, lunix_chrdev_state_update lookup st sensor = some (r, st2) ∧
      (r = 0 ∨ r = -EAGAIN) := by
  obtain ⟨hlt, -, -, -, -, -⟩ := open_type_valid h
  obtain ⟨m, hm⟩ := toMsr_of_lt hlt
  rw [state_update_of_valid lookup st sensor m hm]
  split
  · exact ⟨-EAGAIN, st, rfl, Or.inr rfl⟩
  · exact ⟨0, _, rfl, Or.inl rfl⟩

/-- C10 witness: the session opened for minor 0 (BATT on sensor 0). -/
theorem C10_witness :
    ∃ r st2, lunix_chrdev_state_update (fun _ raw => (raw : Int))
        ⟨0, 0, 0, 0, ""⟩ default = some (r, st2) ∧ (r = 0 ∨ r = -EAGAIN) :=
  C10_refresh_no_einval 0 _ (by decide) _ default

/-- C5: `lunix_sensor_update` writes the three raw values and stamps all three
per-kind timestamps with the one shared current-time reading, so after any
single update the three timestamps are mutually equal; with a monotone clock
the per-kind timestamps are non-decreasing over successive updates; and in the
call's event trace every write happens between lock acquisition and release,
with the wake of the waiters strictly after the release. -/
theorem C5_sensor_update_atomicity :
    (∀ (s : SensorStruct) (b t l now : Nat),
      ((lunix_sensor_update s b t l now).msr .BATT).value = b ∧
      ((lunix_sensor_update s b t l now).msr .TEMP).value = t ∧
      ((lunix_sensor_update s b t l now).msr .LIGHT).value = l ∧
      ∀ m : Msr, ((lunix_sensor_update s b t l now).msr m).last_update = now)
    ∧ (∀ (s : SensorStruct) (b t l now b2 t2 l2 now2 : Nat), now ≤ now2 →
        ∀ m : Msr,
          ((lunix_sensor_update s b t l now).msr m).last_update ≤
            ((lunix_sensor_update (lunix_sensor_update s b t l now) b2 t2 l2 now2).msr
                m).last_update)
    ∧ (∀ m : Msr,
        lunix_sensor_update_trace.indexOf .acquireLock <
          lunix_sensor_update_trace.indexOf (.writeRaw m) ∧
        lunix_sensor_update_trace.indexOf (.writeRaw m) <
          lunix_sensor_update_trace.indexOf .releaseLock ∧
        lunix_sensor_update_trace.indexOf .acquireLock <
          lunix_sensor_update_trace.indexOf (.writeTimestamp m) ∧
        lunix_sensor_update_trace.indexOf (.writeTimestamp m) <
          lunix_sensor_update_trace.indexOf .releaseLock)
    ∧ lunix_sensor_update_trace.indexOf .releaseLock <
        lunix_sensor_update_trace.indexOf .wakeWaiters := by
  refine ⟨?_, ?_, ?_, ?_⟩
  · intro s b t l now
    exact ⟨rfl, rfl, rfl, fun m => sensor_update_msr_last s b t l now m⟩
  · intro s b t l now b2 t2 l2 now2 h m
    rw [sensor_update_msr_last, sensor_update_msr_last]
    exact h
  · intro m
    cases m <;> exact ⟨by decide, by decide, by decide, by decide⟩
  · decide

/-- C5 witness: two successive updates at clock readings 10 and 11. -/
theorem C5_witness :
    ((lunix_sensor_update default 1 2 3 10).msr .BATT).last_update ≤
      ((lunix_sensor_update (lunix_sensor_update default 1 2 3 10) 4 5 6 11).msr
          .BATT).last_update :=
  C5_sensor_update_atomicity.2.1 default 1 2 3 10 4 5 6 11 (by decide) .BATT

/-- C6: `lunix_chrdev_state_needs_refresh` reports true exactly when the cached
timestamp differs from the sensor's current timestamp for the session's kind;
it is false immediately after a successful refresh; and after a refresh it
becomes true through a subsequent `lunix_sensor_update` exactly when that
update's (monotone) clock reading is strictly newer than the cached one. -/
theorem C6_needs_refresh_iff (st : ChrdevState) (sensor : SensorStruct) (m : Msr)
    (hm : toMsr st.type = some m) (lookup : Msr → Nat → Int) :
    (lunix_chrdev_state_needs_refresh st sensor = some true ↔
      st.buf_timestamp ≠ (sensor.msr m).last_update)
    ∧ (∀ st2, lunix_chrdev_state_update lookup st sensor = some (0, st2) →
        lunix_chrdev_state_needs_refresh st2 sensor = some false)
    ∧ (∀ st2 (b t l now : Nat),
        lunix_chrdev_state_update lookup st sensor = some (0, st2) →
        (sensor.msr m).last_update ≤ now →
        (lunix_chrdev_state_needs_refresh st2 (lunix_sensor_update sensor b t l now)
            = some true ↔ (sensor.msr m).last_update < now)) := by
  refine ⟨?_, ?_, ?_⟩
  · simp [lunix_chrdev_state_needs_refresh, hm, bne_iff_ne]
  · intro st2 hupd
    rw [state_update_of_valid lookup st sensor m hm] at hupd
    split at hupd
    · injection Option.some.inj hupd with h1 h2
      exact absurd h1 (by decide)
    · injection Option.some.inj hupd with h1 h2
      subst h2
      simp [lunix_chrdev_state_needs_refresh, hm]
  · intro st2 b t l now hupd hmono
    rw [state_update_of_valid lookup st sensor m hm] at hupd
    split at hupd
    · injection Option.some.inj hupd with h1 h2
      exact absurd h1 (by decide)
    · injection Option.some.inj hupd with h1 h2
      subst h2
      simp [lunix_chrdev_state_needs_refresh, hm, sensor_update_msr_last, bne_iff_ne]
      omega

/-- C6 witness: a freshly opened session (cached timestamp 0) against a sensor
in which BATT was last updated at time 1. -/
theorem C6_witness :
    lunix_chrdev_state_needs_refresh ⟨0, 0, 0, 0, ""⟩
      ⟨⟨0, 1, 512⟩, ⟨0, 1, 0⟩, ⟨0, 1, 0⟩⟩ = some true :=
  ((C6_needs_refresh_iff ⟨0, 0, 0, 0, ""⟩ ⟨⟨0, 1, 512⟩, ⟨0, 1, 0⟩, ⟨0, 1, 0⟩⟩ .BATT rfl
      (fun _ raw => (raw : Int))).1).mpr (by decide)

/-- C3: after any successful refresh, the text in the session cache is exactly
the integer part `milliUnits / 1000` (C division, truncating toward zero),
a dot, the three zero-padded decimal digits of `abs(milliUnits % 1000)` (C
remainder, sign of the dividend), and a newline. -/
theorem C3_rendered_text (lookup : Msr → Nat → Int) (st : ChrdevState)
    (sensor : SensorStruct) (m : Msr) (hm : toMsr st.type = some m)
    (hfresh : st.buf_timestamp ≠ (sensor.msr m).last_update) :
    ∃ st2, lunix_chrdev_state_update lookup st sensor = some (0, st2) ∧
      ∃ c1 c2 c3 : Char,
        st2.buf_data =
          Int.repr (Int.tdiv (lookup m (sensor.msr m).value) 1000) ++ "." ++
            String.mk [c1, c2, c3] ++ "\n" ∧
        c1.isDigit = true ∧ c2.isDigit = true ∧ c3.isDigit = true ∧
        (c1.toNat - 48) * 100 + (c2.toNat - 48) * 10 + (c3.toNat - 48) =
          (Int.tmod (lookup m (sensor.msr m).value) 1000).natAbs := by
  rw [state_update_of_valid lookup st sensor m hm, if_neg hfresh]
  refine ⟨_, rfl, ?_⟩
  have hn := tmod_natAbs_lt_1000 (lookup m (sensor.msr m).value)
  refine ⟨Nat.digitChar ((Int.tmod (lookup m (sensor.msr m).value) 1000).natAbs / 100),
          Nat.digitChar ((Int.tmod (lookup m (sensor.msr m).value) 1000).natAbs / 10 % 10),
          Nat.digitChar ((Int.tmod (lookup m (sensor.msr m).value) 1000).natAbs % 10),
          ?_, ?_, ?_, ?_, ?_⟩
  · show render (lookup m (sensor.msr m).value) = _
    unfold render fmt03
    rw [if_pos hn]
  · exact digitChar_isDigit _ (by omega)
  · exact digitChar_isDigit _ (Nat.mod_lt _ (by omega))
  · exact digitChar_isDigit _ (Nat.mod_lt _ (by omega))
  · rw [digitChar_toNat _ (by omega), digitChar_toNat _ (Nat.mod_lt _ (by omega)),
      digitChar_toNat _ (Nat.mod_lt _ (by omega))]
    omega

/-- C3 witness: refreshing a BATT session over a raw value 512 with the
identity conversion. -/
theorem C3_witness :
    ∃ st2, lunix_chrdev_state_update (fun _ raw => (raw : Int)) ⟨0, 0, 0, 0, ""⟩
        ⟨⟨0, 1, 512⟩, ⟨0, 1, 0⟩, ⟨0, 1, 0⟩⟩ = some (0, st2) ∧
      ∃ c1 c2 c3 : Char,
        st2.buf_data = Int.repr (Int.tdiv ((512 : Nat) : Int) 1000) ++ "." ++
            String.mk [c1, c2, c3] ++ "\n" ∧
        c1.isDigit = true ∧ c2.isDigit = true ∧ c3.isDigit = true ∧
        (c1.toNat - 48) * 100 + (c2.toNat - 48) * 10 + (c3.toNat - 48) =
          (Int.tmod ((512 : Nat) : Int) 1000).natAbs :=
  C3_rendered_text (fun _ raw => (raw : Int)) ⟨0, 0, 0, 0, ""⟩
    ⟨⟨0, 1, 512⟩, ⟨0, 1, 0⟩, ⟨0, 1, 0⟩⟩ .BATT rfl (by decide)

/-- C9 counterexample: the claim computes the converted value for raw battery
sample 512 as `round(1.223 × 1023 / 512 × 1000)`.  That rounding gives 2444,
while the generated lookup table truncates toward zero and stores 2443: the
value the driver delivers is not the rounded one. -/
theorem C9_round_mismatch :
    uint16_to_batt 512 = 2443 ∧
      round ((1223 : ℚ) / 1000 * (1023 / (512 : ℚ)) * 1000) = 2444 := by
  refine ⟨uint16_to_batt_512, ?_⟩
  rw [round_eq]
  rw [show ((1223 : ℚ) / 1000 * (1023 / (512 : ℚ)) * 1000 + 1 / 2) = 1251385 / 512 by
    norm_num]
  rw [Int.floor_eq_iff]
  constructor <;> norm_num

/-- C9 (amended): for raw battery sample 512 with reference 1.223 V and a
10-bit ADC, the converted value is the truncation (not rounding) of
1.223 × 1023 / 512 × 1000, namely 2443 milliunits, and the text rendered into
the cache and delivered to a reader is exactly "2.443\n". -/
theorem C9_battery_sample_512 :
    uint16_to_batt 512 = 2443 ∧ render 2443 = "2.443\n" ∧
      ∃ st2, lunix_chrdev_state_update (fun _ raw => uint16_to_batt raw)
          ⟨0, 0, 0, 0, ""⟩
          ⟨⟨LUNIX_MSR_MAGIC, 1, 512⟩, ⟨LUNIX_MSR_MAGIC, 1, 0⟩, ⟨LUNIX_MSR_MAGIC, 1, 0⟩⟩
        = some (0, st2) ∧ st2.buf_data = "2.443\n" := by
  have hr : render 2443 = "2.443\n" := by decide
  refine ⟨uint16_to_batt_512, hr, ?_⟩
  rw [state_update_of_valid (fun _ raw => uint16_to_batt raw) ⟨0, 0, 0, 0, ""⟩
      ⟨⟨LUNIX_MSR_MAGIC, 1, 512⟩, ⟨LUNIX_MSR_MAGIC, 1, 0⟩, ⟨LUNIX_MSR_MAGIC, 1, 0⟩⟩
      .BATT rfl,
    if_neg (by decide)]
  refine ⟨_, rfl, ?_⟩
  show render (uint16_to_batt 512) = "2.443\n"
  rw [uint16_to_batt_512]
  exact hr

/-- C7: for a completed sensor-data packet (signature `0x0B`), a node id of 0
or above the sensor count leaves the sensor array untouched (the frame is
discarded with only a diagnostic), while a node id within `[1, sensorCount]`
updates exactly `sensors[nodeid - 1]` via `lunix_sensor_update`. -/
theorem C7_node_id_range :
    (∀ (packet : List Nat) (sensors : List SensorStruct) (now : Nat),
      packet.getD PACKET_SIGNATURE_OFFSET 0 = 0x0B →
      (uint16_from_packet packet NODE_OFFSET = 0 ∨
        sensors.length < uint16_from_packet packet NODE_OFFSET) →
      lunix_protocol_update_sensors packet sensors now = sensors)
    ∧ (∀ (packet : List Nat) (sensors : List SensorStruct) (now : Nat),
      packet.getD PACKET_SIGNATURE_OFFSET 0 = 0x0B →
      1 ≤ uint16_from_packet packet NODE_OFFSET →
      uint16_from_packet packet NODE_OFFSET ≤ sensors.length →
      lunix_protocol_update_sensors packet sensors now =
        sensors.set (uint16_from_packet packet NODE_OFFSET - 1)
          (lunix_sensor_update
            (sensors.getD (uint16_from_packet packet NODE_OFFSET - 1) default)
            (uint16_from_packet packet VREF_OFFSET)
            (uint16_from_packet packet TEMPERATURE_OFFSET)
            (uint16_from_packet packet LIGHT_OFFSET) now)) := by
  constructor
  · intro packet sensors now hsig hout
    simp only [lunix_protocol_update_sensors]
    rw [if_pos hsig, if_neg (by omega)]
  · intro packet sensors now hsig h1 h2
    simp only [lunix_protocol_update_sensors]
    rw [if_pos hsig, if_pos ⟨h1, h2⟩]

/-- C7 witness: with 16 sensors, node ids 0 and 17 are rejected without
mutating any sensor and node id 1 updates `sensors[0]`. -/
theorem C7_witness :
    lunix_protocol_update_sensors [0, 0, 0, 0, 0x0B, 0, 0, 0, 0, 0, 0]
        (List.replicate 16 default) 5 = List.replicate 16 default
    ∧ lunix_protocol_update_sensors [0, 0, 0, 0, 0x0B, 0, 0, 0, 0, 17, 0]
        (List.replicate 16 default) 5 = List.replicate 16 default
    ∧ lunix_protocol_update_sensors [0, 0, 0, 0, 0x0B, 0, 0, 0, 0, 1, 0]
        (List.replicate 16 default) 5 =
      (List.replicate 16 default).set 0
        (lunix_sensor_update ((List.replicate 16 default).getD 0 default) 0 0 0 5) :=
  ⟨C7_node_id_range.1 _ _ 5 (by decide) (by decide),
   C7_node_id_range.1 _ _ 5 (by decide) (by decide),
   C7_node_id_range.2 _ _ 5 (by decide) (by decide) (by decide)⟩

/-- C2 counterexample: the claim says read has exactly three outcomes.  A
fourth exists: on a session opened for minor 0, with fresh data available and
a copy to the caller's buffer that fails, `lunix_chrdev_read` returns
`-EFAULT` (`faultRes`) — neither success, end-of-data, nor interrupted. -/
theorem C2_read_can_fault :
    lunix_chrdev_open 0 = some ⟨0, 0, 0, 0, ""⟩ ∧
    lunix_chrdev_read (fun _ raw => (raw : Int)) false [] false ⟨0, 0, 0, 0, ""⟩
        ⟨⟨0, 5, 512⟩, ⟨0, 5, 0⟩, ⟨0, 5, 0⟩⟩ 0 100 = .faultRes := by
  exact ⟨by decide, by decide⟩

/-- C2 (amended): when the copy to the caller's buffer succeeds, a read on a
session with a valid kind and a consistent cache either has not yet returned
(still blocked), or returns one of exactly three outcomes: end-of-data
(0 bytes), interrupted, or success with a nonempty byte string; the only
further outcome of the code, `-EFAULT`, occurs exactly when that copy fails. -/
theorem C2_read_outcomes (lookup : Msr → Nat → Int) (l0 : Bool)
    (iters : List WaitIter) (st : ChrdevState) (sensor : SensorStruct)
    (f_pos cnt : Nat) (htype : st.type < N_LUNIX_MSR)
    (hwf : st.buf_data.data.length = st.buf_lim) :
    lunix_chrdev_read lookup l0 iters true st sensor f_pos cnt = .blockedRes ∨
    lunix_chrdev_read lookup l0 iters true st sensor f_pos cnt = .eofRes ∨
    lunix_chrdev_read lookup l0 iters true st sensor f_pos cnt = .intrRes ∨
    ∃ d st2 p, lunix_chrdev_read lookup l0 iters true st sensor f_pos cnt
        = .success d st2 p ∧ d ≠ [] := by
  obtain ⟨m, hm⟩ := toMsr_of_lt htype
  unfold lunix_chrdev_read
  split
  · right; right; left; rfl
  · by_cases hf : f_pos = 0
    · rw [if_pos hf]
      rcases readLoop_out lookup iters st sensor m hm with hb | hi | ⟨st2, hu, hwf2⟩
      · rw [hb]; left; rfl
      · rw [hi]; right; right; left; rfl
      · rw [hu]
        rcases serveBytes_outcomes st2 f_pos cnt hwf2 with he | ⟨d, st3, p, hs, hd⟩
        · right; left; exact he
        · right; right; right; exact ⟨d, st3, p, hs, hd⟩
    · rw [if_neg hf]
      rcases serveBytes_outcomes st f_pos cnt hwf with he | ⟨d, st3, p, hs, hd⟩
      · right; left; exact he
      · right; right; right; exact ⟨d, st3, p, hs, hd⟩

/-- C2 witness: a read with a succeeding copy on the session opened for minor
0, against a sensor holding fresh data. -/
theorem C2_witness :
    lunix_chrdev_read (fun _ raw => (raw : Int)) false [] true ⟨0, 0, 0, 0, ""⟩
        ⟨⟨0, 5, 512⟩, ⟨0, 5, 0⟩, ⟨0, 5, 0⟩⟩ 0 100 = .blockedRes ∨
    lunix_chrdev_read (fun _ raw => (raw : Int)) false [] true ⟨0, 0, 0, 0, ""⟩
        ⟨⟨0, 5, 512⟩, ⟨0, 5, 0⟩, ⟨0, 5, 0⟩⟩ 0 100 = .eofRes ∨
    lunix_chrdev_read (fun _ raw => (raw : Int)) false [] true ⟨0, 0, 0, 0, ""⟩
        ⟨⟨0, 5, 512⟩, ⟨0, 5, 0⟩, ⟨0, 5, 0⟩⟩ 0 100 = .intrRes ∨
    ∃ d st2 p, lunix_chrdev_read (fun _ raw => (raw : Int)) false [] true
        ⟨0, 0, 0, 0, ""⟩ ⟨⟨0, 5, 512⟩, ⟨0, 5, 0⟩, ⟨0, 5, 0⟩⟩ 0 100
        = .success d st2 p ∧ d ≠ [] :=
  C2_read_outcomes (fun _ raw => (raw : Int)) false [] ⟨0, 0, 0, 0, ""⟩
    ⟨⟨0, 5, 512⟩, ⟨0, 5, 0⟩, ⟨0, 5, 0⟩⟩ 0 100 (by decide) (by decide)

/-! ## Parser lemmas -/

theorem step1_data (s : ProtoState) (b : Nat) (h : s.stage.isData = true) :
    step1 s b = dataStep s b := by
  unfold step1
  cases hs : s.stage
  · rw [hs] at h
    exact absurd h (by decide)
  · rfl
  · rfl
  · rfl
  · rfl
  · rfl
  · rfl
  · rfl
  · rw [hs] at h
    exact absurd h (by decide)

theorem dataStep_escape_mark (s : ProtoState) (hpos : s.pos ≠ MAX_PACKET_LEN)
    (hsp : s.next_is_special = false) :
    dataStep s 0x7D = ({ s with next_is_special := true }, .cont) := by
  unfold dataStep
  rw [if_neg hpos, if_neg (by simp [hsp]), if_pos rfl]

theorem dataStep_escaped (s : ProtoState) (b : Nat) (hpos : s.pos ≠ MAX_PACKET_LEN)
    (hsp : s.next_is_special = true) :
    dataStep s b = (storeByte s (b ^^^ 0x20), .cont) := by
  unfold dataStep
  rw [if_neg hpos, if_pos hsp]

theorem dataStep_plain (s : ProtoState) (b : Nat) (hpos : s.pos ≠ MAX_PACKET_LEN)
    (hsp : s.next_is_special = false) (hb : b ≠ 0x7D) :
    dataStep s b = (storeByte s b, .cont) := by
  unfold dataStep
  rw [if_neg hpos, if_neg (by simp [hsp]), if_neg hb]

theorem runClean_cons_cont {s s2 : ProtoState} {b : Nat} (h : step1 s b = (s2, .cont))
    (rest : List Nat) : runClean s (b :: rest) = runClean s2 rest := by
  conv_lhs => unfold runClean
  rw [h]

theorem runClean_append (a : List Nat) : ∀ (b : List Nat) (s : ProtoState),
    runClean s (a ++ b) = (runClean s a).bind fun s2 => runClean s2 b := by
  induction a with
  | nil =>
    intro b s
    simp [runClean]
  | cons x t ih =>
    intro b s
    rw [List.cons_append]
    rcases hx : step1 s x with ⟨s2, o⟩
    cases o with
    | cont =>
      rw [runClean_cons_cont hx (t ++ b), runClean_cons_cont hx t, ih]
    | emit p =>
      unfold runClean
      rw [hx]
      simp
    | abort =>
      unfold runClean
      rw [hx]
      simp

theorem received_buf_cons_cont {s s2 : ProtoState} {b : Nat} (h : step1 s b = (s2, .cont))
    (rest : List Nat) :
    lunix_protocol_received_buf s (b :: rest) = lunix_protocol_received_buf s2 rest := by
  conv_lhs => unfold lunix_protocol_received_buf
  rw [h]

theorem received_buf_cons_emit {s s2 : ProtoState} {b : Nat} {p : List Nat}
    (h : step1 s b = (s2, .emit p)) (rest : List Nat) :
    lunix_protocol_received_buf s (b :: rest) = (s2, [p]) := by
  conv_lhs => unfold lunix_protocol_received_buf
  rw [h]

theorem received_buf_clean_front (a : List Nat) : ∀ (d : List Nat) (s s2 : ProtoState),
    runClean s a = some s2 →
    lunix_protocol_received_buf s (a ++ d) = lunix_protocol_received_buf s2 d := by
  induction a with
  | nil =>
    intro d s s2 h
    unfold runClean at h
    cases Option.some.inj h
    rw [List.nil_append]
  | cons x t ih =>
    intro d s s2 h
    rcases hx : step1 s x with ⟨s3, o⟩
    cases o with
    | cont =>
      rw [runClean_cons_cont hx t] at h
      rw [List.cons_append, received_buf_cons_cont hx (t ++ d)]
      exact ih d s3 s2 h
    | emit p =>
      unfold runClean at h
      rw [hx] at h
      simp at h
    | abort =>
      unfold runClean at h
      rw [hx] at h
      simp at h

theorem feedAll_cons (s : ProtoState) (c : List Nat) (rest : List (List Nat)) :
    feedAll s (c :: rest) =
      ((feedAll (lunix_protocol_received_buf s c).1 rest).1,
       (lunix_protocol_received_buf s c).2 ++
         (feedAll (lunix_protocol_received_buf s c).1 rest).2) := rfl

theorem feedAll_join_nil (chunks : List (List Nat)) : ∀ s : ProtoState,
    joinChunks chunks = [] → feedAll s chunks = (s, []) := by
  induction chunks with
  | nil => intro s _; rfl
  | cons c rest ih =>
    intro s h
    unfold joinChunks at h
    obtain ⟨hc, hrest⟩ := List.append_eq_nil.mp h
    subst hc
    rw [feedAll_cons]
    have h2 := ih s hrest
    rw [show lunix_protocol_received_buf s [] = (s, []) from rfl, h2]
    rfl

theorem feedAll_clean_emit (chunks : List (List Nat)) :
    ∀ (w : List Nat) (s s_e : ProtoState) (lastB : Nat) (f : List Nat),
      runClean s w = some s_e →
      step1 s_e lastB = (protoInit, .emit f) →
      joinChunks chunks = w ++ [lastB] →
      feedAll s chunks = (protoInit, [f]) := by
  induction chunks with
  | nil =>
    intro w s s_e lastB f _ _ h3
    unfold joinChunks at h3
    exact absurd h3.symm (by simp)
  | cons c rest ih =>
    intro w s s_e lastB f h1 h2 h3
    unfold joinChunks at h3
    rcases List.append_eq_append_iff.mp h3 with ⟨a2, hw, hjr⟩ | ⟨c2, hc, hl⟩
    · subst hw
      rw [runClean_append c a2 s] at h1
      rcases hc2 : runClean s c with _ | s_c
      · rw [hc2] at h1
        simp at h1
      · rw [hc2] at h1
        rw [show (some s_c).bind (fun s2 => runClean s2 a2) = runClean s_c a2 from rfl] at h1
        have hrb : lunix_protocol_received_buf s c = (s_c, []) := by
          have hp := received_buf_clean_front c [] s s_c hc2
          rw [List.append_nil] at hp
          exact hp.trans rfl
        rw [feedAll_cons, hrb]
        rw [ih a2 s_c s_e lastB f h1 h2 hjr]
        rfl
    · cases c2 with
      | nil =>
        rw [List.append_nil] at hc
        have hrb : lunix_protocol_received_buf s c = (s_e, []) := by
          rw [hc]
          have hp := received_buf_clean_front w [] s s_e h1
          rw [List.append_nil] at hp
          exact hp.trans rfl
        rw [feedAll_cons, hrb]
        rw [ih [] s_e s_e lastB f rfl h2 (by simpa using hl.symm)]
        rfl
      | cons x c2t =>
        injection hl with hx htail
        subst hx
        obtain ⟨hc2t, hjoin⟩ := List.append_eq_nil.mp htail.symm
        subst hc2t
        subst hc
        have hrb : lunix_protocol_received_buf s (w ++ [lastB]) = (protoInit, [f]) := by
          rw [received_buf_clean_front w [lastB] s s_e h1]
          unfold lunix_protocol_received_buf
          rw [h2]
        rw [feedAll_cons, hrb]
        rw [feedAll_join_nil rest protoInit hjoin]
        rfl

theorem runClean_esc_store (s : ProtoState) (b : Nat) (rest : List Nat)
    (hd : s.stage.isData = true) (hsp : s.next_is_special = false)
    (hpos : s.pos ≠ MAX_PACKET_LEN) :
    runClean s (esc b ++ rest) = runClean (storeByte s b) rest := by
  unfold esc
  by_cases hb : b = 0x7E ∨ b = 0x7D
  · rw [if_pos hb]
    show runClean s (0x7D :: (b ^^^ 0x20) :: rest) = _
    have h1 : step1 s 0x7D = ({ s with next_is_special := true }, .cont) := by
      rw [step1_data s 0x7D hd]
      exact dataStep_escape_mark s hpos hsp
    rw [runClean_cons_cont h1 ((b ^^^ 0x20) :: rest)]
    have h2 : step1 { s with next_is_special := true } (b ^^^ 0x20)
        = (storeByte s b, .cont) := by
      rw [step1_data { s with next_is_special := true } (b ^^^ 0x20) hd]
      rw [dataStep_escaped { s with next_is_special := true } (b ^^^ 0x20) hpos rfl]
      rw [Nat.xor_assoc, Nat.xor_self, Nat.xor_zero]
      cases s
      rfl
    rw [runClean_cons_cont h2 rest]
  · rw [if_neg hb]
    push_neg at hb
    show runClean s (b :: rest) = _
    have h1 : step1 s b = (storeByte s b, .cont) := by
      rw [step1_data s b hd]
      exact dataStep_plain s b hpos hsp hb.2
    rw [runClean_cons_cont h1 rest]

theorem runClean_payload_fill (bs : List Nat) :
    ∀ (pkt : List Nat) (br L : Nat) (rest : List Nat),
      br + bs.length = L → 1 ≤ bs.length → pkt.length + bs.length ≤ MAX_PACKET_LEN →
      runClean ⟨.payload, br, L, false, L, pkt⟩ (escBody bs ++ rest) =
        runClean ⟨.crc, 0, 2, false, L, pkt ++ bs⟩ rest := by
  induction bs with
  | nil =>
    intro pkt br L rest _ h2 _
    exact absurd h2 (by simp)
  | cons b t ih =>
    intro pkt br L rest h1 _ h3
    simp only [List.length_cons] at h1 h3
    rw [show escBody (b :: t) = esc b ++ escBody t from rfl, List.append_assoc]
    rw [runClean_esc_store ⟨.payload, br, L, false, L, pkt⟩ b (escBody t ++ rest) rfl rfl
      (by show ¬ pkt.length = MAX_PACKET_LEN
          unfold MAX_PACKET_LEN at h3 ⊢
          omega)]
    rcases Nat.lt_or_ge (br + 1) L with hlt | hge
    · have hst : storeByte ⟨.payload, br, L, false, L, pkt⟩ b
          = ⟨.payload, br + 1, L, false, L, pkt ++ [b]⟩ := by
        unfold storeByte afterStore
        simp [hlt]
      rw [hst]
      rw [ih (pkt ++ [b]) (br + 1) L rest (by omega) (by omega)
        (by simp only [List.length_append, List.length_cons, List.length_nil]; omega)]
      rw [List.append_assoc, List.singleton_append]
    · have hbrL : br + 1 = L := by omega
      have ht0 : t = [] := by
        have h0 : t.length = 0 := by omega
        exact List.length_eq_zero.mp h0
      subst ht0
      have hst : storeByte ⟨.payload, br, L, false, L, pkt⟩ b
          = ⟨.crc, 0, 2, false, L, pkt ++ [b]⟩ := by
        unfold storeByte afterStore
        simp [show ¬ (br + 1 < L) from by omega, hbrL]
      rw [hst]
      rw [show escBody ([] : List Nat) = [] from rfl, List.nil_append]

theorem runClean_wireBody (F : SensorFrame) (hpl1 : 1 ≤ F.payload.length)
    (hpl255 : F.payload.length ≤ 255) :
    runClean protoInit (wireBody F) =
      some ⟨.seekEnd, 0, 1, false, F.payload.length, decodedPacket F⟩ := by
  obtain ⟨p, e1, e2, a1, a2, pay, k1, k2⟩ := F
  dsimp only at hpl1 hpl255
  dsimp only [wireBody, decodedPacket]
  simp only [List.append_assoc]
  have h0 : step1 protoInit 0x7E
      = (⟨.packetType, 0, 1, false, 0, [0x7E]⟩, .cont) := by decide
  rw [runClean_cons_cont h0]
  rw [runClean_esc_store ⟨.packetType, 0, 1, false, 0, [0x7E]⟩ p _ rfl rfl (by simp [ProtoState.pos, MAX_PACKET_LEN])]
  rw [show storeByte (⟨.packetType, 0, 1, false, 0, [0x7E]⟩ : ProtoState) p
      = ⟨.destAddr, 0, 2, false, 0, [0x7E, p]⟩ from by unfold storeByte afterStore; simp]
  rw [runClean_esc_store ⟨.destAddr, 0, 2, false, 0, [0x7E, p]⟩ e1 _ rfl rfl (by simp [ProtoState.pos, MAX_PACKET_LEN])]
  rw [show storeByte (⟨.destAddr, 0, 2, false, 0, [0x7E, p]⟩ : ProtoState) e1
      = ⟨.destAddr, 1, 2, false, 0, [0x7E, p, e1]⟩ from by unfold storeByte afterStore; simp]
  rw [runClean_esc_store ⟨.destAddr, 1, 2, false, 0, [0x7E, p, e1]⟩ e2 _ rfl rfl (by simp [ProtoState.pos, MAX_PACKET_LEN])]
  rw [show storeByte (⟨.destAddr, 1, 2, false, 0, [0x7E, p, e1]⟩ : ProtoState) e2
      = ⟨.amType, 0, 1, false, 0, [0x7E, p, e1, e2]⟩ from by unfold storeByte afterStore; simp]
  rw [runClean_esc_store ⟨.amType, 0, 1, false, 0, [0x7E, p, e1, e2]⟩ a1 _ rfl rfl (by simp [ProtoState.pos, MAX_PACKET_LEN])]
  rw [show storeByte (⟨.amType, 0, 1, false, 0, [0x7E, p, e1, e2]⟩ : ProtoState) a1
      = ⟨.amGroup, 0, 1, false, 0, [0x7E, p, e1, e2, a1]⟩ from by
    unfold storeByte afterStore; simp]
  rw [runClean_esc_store ⟨.amGroup, 0, 1, false, 0, [0x7E, p, e1, e2, a1]⟩ a2 _ rfl rfl
    (by simp [ProtoState.pos, MAX_PACKET_LEN])]
  rw [show storeByte (⟨.amGroup, 0, 1, false, 0, [0x7E, p, e1, e2, a1]⟩ : ProtoState) a2
      = ⟨.payloadLen, 0, 1, false, 0, [0x7E, p, e1, e2, a1, a2]⟩ from by
    unfold storeByte afterStore; simp]
  rw [runClean_esc_store ⟨.payloadLen, 0, 1, false, 0, [0x7E, p, e1, e2, a1, a2]⟩ pay.length _
    rfl rfl (by simp [ProtoState.pos, MAX_PACKET_LEN])]
  rw [show storeByte (⟨.payloadLen, 0, 1, false, 0, [0x7E, p, e1, e2, a1, a2]⟩ : ProtoState)
        pay.length
      = ⟨.payload, 0, pay.length, false, pay.length, [0x7E, p, e1, e2, a1, a2, pay.length]⟩
      from by
    unfold storeByte afterStore
    simp [show ¬ pay.length = 0 from by omega]]
  rw [runClean_payload_fill pay [0x7E, p, e1, e2, a1, a2, pay.length] 0 pay.length
    (esc k1 ++ esc k2) (by omega) hpl1
    (by show [0x7E, p, e1, e2, a1, a2, pay.length].length + pay.length ≤ 300
        simp only [List.length_cons, List.length_nil]
        omega)]
  rw [runClean_esc_store ⟨.crc, 0, 2, false, pay.length,
      [0x7E, p, e1, e2, a1, a2, pay.length] ++ pay⟩ k1 (esc k2) rfl rfl
    (by show ¬ ([0x7E, p, e1, e2, a1, a2, pay.length] ++ pay).length = MAX_PACKET_LEN
        simp only [List.length_append, List.length_cons, List.length_nil]
        unfold MAX_PACKET_LEN
        omega)]
  rw [show storeByte (⟨.crc, 0, 2, false, pay.length,
        [0x7E, p, e1, e2, a1, a2, pay.length] ++ pay⟩ : ProtoState) k1
      = ⟨.crc, 1, 2, false, pay.length,
          ([0x7E, p, e1, e2, a1, a2, pay.length] ++ pay) ++ [k1]⟩ from by
    unfold storeByte afterStore; simp]
  rw [show esc k2 = esc k2 ++ ([] : List Nat) from (List.append_nil _).symm]
  rw [runClean_esc_store ⟨.crc, 1, 2, false, pay.length,
      ([0x7E, p, e1, e2, a1, a2, pay.length] ++ pay) ++ [k1]⟩ k2 [] rfl rfl
    (by show ¬ (([0x7E, p, e1, e2, a1, a2, pay.length] ++ pay) ++ [k1]).length = MAX_PACKET_LEN
        simp only [List.length_append, List.length_cons, List.length_nil]
        unfold MAX_PACKET_LEN
        omega)]
  rw [show storeByte (⟨.crc, 1, 2, false, pay.length,
        ([0x7E, p, e1, e2, a1, a2, pay.length] ++ pay) ++ [k1]⟩ : ProtoState) k2
      = ⟨.seekEnd, 0, 1, false, pay.length,
          (([0x7E, p, e1, e2, a1, a2, pay.length] ++ pay) ++ [k1]) ++ [k2]⟩ from by
    unfold storeByte afterStore; simp]
  unfold runClean
  simp [List.append_assoc]

theorem received_buf_wire (F : SensorFrame) (hpl1 : 1 ≤ F.payload.length)
    (hpl255 : F.payload.length ≤ 255) :
    lunix_protocol_received_buf protoInit (wire F) = (protoInit, [decodedPacket F]) := by
  rw [show wire F = wireBody F ++ [0x7E] from rfl]
  rw [received_buf_clean_front (wireBody F) [0x7E] protoInit
    ⟨.seekEnd, 0, 1, false, F.payload.length, decodedPacket F⟩
    (runClean_wireBody F hpl1 hpl255)]
  exact received_buf_cons_emit
    (show step1 (⟨.seekEnd, 0, 1, false, F.payload.length, decodedPacket F⟩ : ProtoState) 0x7E
        = (protoInit, .emit (decodedPacket F)) from by unfold step1; simp) []

theorem extract_decoded (F : SensorFrame) (h17 : 17 ≤ F.payload.length) :
    extractTuple (decodedPacket F) =
      (F.payload.getD 2 0 + 256 * F.payload.getD 3 0,
       F.payload.getD 11 0 + 256 * F.payload.getD 12 0,
       F.payload.getD 13 0 + 256 * F.payload.getD 14 0,
       F.payload.getD 15 0 + 256 * F.payload.getD 16 0) := by
  have h9 : (decodedPacket F).getD 9 0 = F.payload.getD 2 0 :=
    (show (decodedPacket F).getD 9 0 = (F.payload ++ [F.crc1, F.crc2]).getD 2 0 from rfl).trans
      (List.getD_append _ _ 0 2 (by omega))
  have h10 : (decodedPacket F).getD 10 0 = F.payload.getD 3 0 :=
    (show (decodedPacket F).getD 10 0 = (F.payload ++ [F.crc1, F.crc2]).getD 3 0 from rfl).trans
      (List.getD_append _ _ 0 3 (by omega))
  have h18 : (decodedPacket F).getD 18 0 = F.payload.getD 11 0 :=
    (show (decodedPacket F).getD 18 0 = (F.payload ++ [F.crc1, F.crc2]).getD 11 0 from rfl).trans
      (List.getD_append _ _ 0 11 (by omega))
  have h19 : (decodedPacket F).getD 19 0 = F.payload.getD 12 0 :=
    (show (decodedPacket F).getD 19 0 = (F.payload ++ [F.crc1, F.crc2]).getD 12 0 from rfl).trans
      (List.getD_append _ _ 0 12 (by omega))
  have h20 : (decodedPacket F).getD 20 0 = F.payload.getD 13 0 :=
    (show (decodedPacket F).getD 20 0 = (F.payload ++ [F.crc1, F.crc2]).getD 13 0 from rfl).trans
      (List.getD_append _ _ 0 13 (by omega))
  have h21 : (decodedPacket F).getD 21 0 = F.payload.getD 14 0 :=
    (show (decodedPacket F).getD 21 0 = (F.payload ++ [F.crc1, F.crc2]).getD 14 0 from rfl).trans
      (List.getD_append _ _ 0 14 (by omega))
  have h22 : (decodedPacket F).getD 22 0 = F.payload.getD 15 0 :=
    (show (decodedPacket F).getD 22 0 = (F.payload ++ [F.crc1, F.crc2]).getD 15 0 from rfl).trans
      (List.getD_append _ _ 0 15 (by omega))
  have h23 : (decodedPacket F).getD 23 0 = F.payload.getD 16 0 :=
    (show (decodedPacket F).getD 23 0 = (F.payload ++ [F.crc1, F.crc2]).getD 16 0 from rfl).trans
      (List.getD_append _ _ 0 16 (by omega))
  show (uint16_from_packet (decodedPacket F) 9, uint16_from_packet (decodedPacket F) 18,
      uint16_from_packet (decodedPacket F) 20, uint16_from_packet (decodedPacket F) 22) = _
  unfold uint16_from_packet
  rw [show (9 : Nat) + 1 = 10 from rfl, show (18 : Nat) + 1 = 19 from rfl,
    show (20 : Nat) + 1 = 21 from rfl, show (22 : Nat) + 1 = 23 from rfl]
  rw [h9, h10, h18, h19, h20, h21, h22, h23]

theorem afterStore_packet (s : ProtoState) : (afterStore s).packet = s.packet := by
  unfold afterStore
  split
  · rfl
  · split
    · rfl
    · rfl
    · rfl
    · rfl
    · split
      · rfl
      · rfl
    · rfl
    · rfl
    · rfl

theorem afterStore_stage_ne (s : ProtoState) (hns : s.stage ≠ .seekStart) :
    (afterStore s).stage ≠ .seekStart := by
  unfold afterStore
  split
  · exact hns
  · split
    · simp
    · simp
    · simp
    · simp
    · split <;> simp
    · simp
    · simp
    · exact hns

theorem step1_seekStart (s : ProtoState) (b : Nat) (hs : s.stage = .seekStart) :
    step1 s b =
      if b = 0x7E then
        ({ s with stage := .packetType, bytes_read := 0, bytes_to_read := 1,
                  packet := s.packet ++ [b] }, .cont)
      else (s, .cont) := by
  unfold step1
  cases hx : s.stage
  · rfl
  · rw [hx] at hs; exact absurd hs (by decide)
  · rw [hx] at hs; exact absurd hs (by decide)
  · rw [hx] at hs; exact absurd hs (by decide)
  · rw [hx] at hs; exact absurd hs (by decide)
  · rw [hx] at hs; exact absurd hs (by decide)
  · rw [hx] at hs; exact absurd hs (by decide)
  · rw [hx] at hs; exact absurd hs (by decide)
  · rw [hx] at hs; exact absurd hs (by decide)

theorem step1_seekEnd (s : ProtoState) (b : Nat) (hs : s.stage = .seekEnd) :
    step1 s b =
      if b = 0x7E then (protoInit, .emit s.packet) else (protoInit, .abort) := by
  unfold step1
  cases hx : s.stage
  · rw [hx] at hs; exact absurd hs (by decide)
  · rw [hx] at hs; exact absurd hs (by decide)
  · rw [hx] at hs; exact absurd hs (by decide)
  · rw [hx] at hs; exact absurd hs (by decide)
  · rw [hx] at hs; exact absurd hs (by decide)
  · rw [hx] at hs; exact absurd hs (by decide)
  · rw [hx] at hs; exact absurd hs (by decide)
  · rw [hx] at hs; exact absurd hs (by decide)
  · rfl

theorem not_isData (st : Stage) (h : ¬ st.isData = true) :
    st = .seekStart ∨ st = .seekEnd := by
  cases st
  · exact Or.inl rfl
  · exact absurd (by decide) h
  · exact absurd (by decide) h
  · exact absurd (by decide) h
  · exact absurd (by decide) h
  · exact absurd (by decide) h
  · exact absurd (by decide) h
  · exact absurd (by decide) h
  · exact Or.inr rfl

theorem step1_posInv (s : ProtoState) (b : Nat) (h : posInv s) : posInv (step1 s b).1 := by
  obtain ⟨hle, hss⟩ := h
  by_cases hd : s.stage.isData = true
  · rw [step1_data s b hd]
    unfold dataStep
    by_cases hp : s.pos = MAX_PACKET_LEN
    · rw [if_pos hp]
      exact ⟨by decide, fun _ => rfl⟩
    · rw [if_neg hp]
      have hlt : s.pos < MAX_PACKET_LEN := Nat.lt_of_le_of_ne hle hp
      have hne : s.stage ≠ .seekStart := by
        intro he
        rw [he] at hd
        exact absurd hd (by decide)
      have hstore : ∀ v : Nat, posInv (storeByte s v) := by
        intro v
        constructor
        · show (storeByte s v).packet.length ≤ MAX_PACKET_LEN
          rw [show (storeByte s v).packet = s.packet ++ [v] from afterStore_packet _]
          rw [List.length_append]
          unfold ProtoState.pos at hlt
          simp only [List.length_cons, List.length_nil]
          omega
        · intro hst
          exact absurd hst (afterStore_stage_ne _ hne)
      split_ifs with h1 h2
      · exact hstore _
      · exact ⟨hle, hss⟩
      · exact hstore _
  · rcases not_isData s.stage hd with hs | hs
    · rw [step1_seekStart s b hs]
      by_cases hb : b = 0x7E
      · rw [if_pos hb]
        refine ⟨?_, fun hst => absurd hst (by simp)⟩
        show (s.packet ++ [b]).length ≤ MAX_PACKET_LEN
        rw [hss hs]
        simp only [List.nil_append, List.length_singleton, MAX_PACKET_LEN]
        omega
      · rw [if_neg hb]
        exact ⟨hle, hss⟩
    · rw [step1_seekEnd s b hs]
      by_cases hb : b = 0x7E
      · rw [if_pos hb]
        exact show posInv protoInit from ⟨by decide, fun _ => rfl⟩
      · rw [if_neg hb]
        exact show posInv protoInit from ⟨by decide, fun _ => rfl⟩

theorem received_buf_posInv (input : List Nat) : ∀ s : ProtoState, posInv s →
    posInv (lunix_protocol_received_buf s input).1 := by
  induction input with
  | nil => intro s h; exact h
  | cons b rest ih =>
    intro s h
    have h2 := step1_posInv s b h
    rcases hx : step1 s b with ⟨s2, o⟩
    rw [hx] at h2
    cases o with
    | cont =>
      rw [received_buf_cons_cont hx rest]
      exact ih s2 h2
    | emit p =>
      rw [received_buf_cons_emit hx rest]
      exact h2
    | abort =>
      have hab : lunix_protocol_received_buf s (b :: rest) = (s2, []) := by
        conv_lhs => unfold lunix_protocol_received_buf
        rw [hx]
      rw [hab]
      exact h2

theorem feedAll_posInv (chunks : List (List Nat)) : ∀ s : ProtoState, posInv s →
    posInv (feedAll s chunks).1 := by
  induction chunks with
  | nil => intro s h; exact h
  | cons c rest ih =>
    intro s h
    rw [feedAll_cons]
    exact ih _ (received_buf_posInv c s h)

/-- C4: for every well-formed sensor frame — escaped occurrences of `0x7E` and
`0x7D` in any field included — and every partition of its wire bytes into
consecutive chunks, feeding the chunks one at a time from the initial parser
state produces exactly the same result (final parser state and emitted packet)
as feeding the whole frame in a single call, and the extracted
(nodeId, batt, temp, light) tuple is the one read little-endian from the
frame's payload at the documented offsets. -/
theorem C4_chunk_boundary_independence (F : SensorFrame) (chunks : List (List Nat))
    (hwf : sensorFrameWF F) (hchunks : joinChunks chunks = wire F) :
    feedAll protoInit chunks = lunix_protocol_received_buf protoInit (wire F) ∧
    (feedAll protoInit chunks).2.map extractTuple =
      [(F.payload.getD 2 0 + 256 * F.payload.getD 3 0,
        F.payload.getD 11 0 + 256 * F.payload.getD 12 0,
        F.payload.getD 13 0 + 256 * F.payload.getD 14 0,
        F.payload.getD 15 0 + 256 * F.payload.getD 16 0)] := by
  obtain ⟨hsig, h17, h255⟩ := hwf
  have hpl1 : 1 ≤ F.payload.length := by omega
  have hstep : step1 (⟨.seekEnd, 0, 1, false, F.payload.length, decodedPacket F⟩ : ProtoState)
      0x7E = (protoInit, .emit (decodedPacket F)) := by
    unfold step1
    simp
  have hfa : feedAll protoInit chunks = (protoInit, [decodedPacket F]) :=
    feedAll_clean_emit chunks (wireBody F) protoInit
      ⟨.seekEnd, 0, 1, false, F.payload.length, decodedPacket F⟩ 0x7E (decodedPacket F)
      (runClean_wireBody F hpl1 h255) hstep hchunks
  refine ⟨hfa.trans (received_buf_wire F hpl1 h255).symm, ?_⟩
  rw [hfa]
  show [extractTuple (decodedPacket F)] = _
  rw [extract_decoded F h17]

/-- C4 witness: a concrete sensor frame whose payload contains `0x7E` and
`0x7D` and whose first CRC byte is `0x7E` (all escaped on the wire), fed one
byte at a time. -/
theorem C4_witness :
    feedAll protoInit
        ((wire ⟨0x7D, 0xFF, 0xFF, 0x0B, 0x22,
            [1, 2, 5, 0, 0, 0, 0, 0, 0, 0, 0, 0x7E, 1, 0x7D, 2, 0x22, 3],
            0x7E, 0x12⟩).map (fun b => [b]))
      = lunix_protocol_received_buf protoInit
          (wire ⟨0x7D, 0xFF, 0xFF, 0x0B, 0x22,
            [1, 2, 5, 0, 0, 0, 0, 0, 0, 0, 0, 0x7E, 1, 0x7D, 2, 0x22, 3],
            0x7E, 0x12⟩)
    ∧ (feedAll protoInit
        ((wire ⟨0x7D, 0xFF, 0xFF, 0x0B, 0x22,
            [1, 2, 5, 0, 0, 0, 0, 0, 0, 0, 0, 0x7E, 1, 0x7D, 2, 0x22, 3],
            0x7E, 0x12⟩).map (fun b => [b]))).2.map extractTuple
      = [(5, 382, 637, 802)] :=
  C4_chunk_boundary_independence
    ⟨0x7D, 0xFF, 0xFF, 0x0B, 0x22,
      [1, 2, 5, 0, 0, 0, 0, 0, 0, 0, 0, 0x7E, 1, 0x7D, 2, 0x22, 3], 0x7E, 0x12⟩
    _ (by decide) (by decide)

/-- C8: across any sequence of received chunks from the initial state the
parser's buffer position never exceeds the working-buffer capacity
(`MAX_PACKET_LEN`, 300 bytes), and whenever an in-progress frame would exceed
that capacity (a data-stage byte arriving with the buffer full) the parser
immediately resets to its initial SEEK_START state emitting nothing. -/
theorem C8_buffer_capacity :
    (∀ chunks : List (List Nat), (feedAll protoInit chunks).1.pos ≤ MAX_PACKET_LEN)
    ∧ (∀ (s : ProtoState) (b : Nat), s.stage.isData = true → s.pos = MAX_PACKET_LEN →
        step1 s b = (protoInit, .abort)) := by
  constructor
  · intro chunks
    exact (feedAll_posInv chunks protoInit ⟨by decide, fun _ => rfl⟩).1
  · intro s b hd hp
    rw [step1_data s b hd]
    unfold dataStep
    rw [if_pos hp]

set_option maxRecDepth 4000 in
/-- C8 witness: a two-byte stream keeps the position within bounds, and a
payload-stage state with a full 300-byte buffer aborts to the initial state on
the next byte. -/
theorem C8_witness :
    (feedAll protoInit [[0x7E, 0x01]]).1.pos ≤ MAX_PACKET_LEN ∧
    step1 ⟨.payload, 0, 280, false, 280, List.replicate 300 0⟩ 7 = (protoInit, .abort) :=
  ⟨C8_buffer_capacity.1 [[0x7E, 0x01]],
   C8_buffer_capacity.2 ⟨.payload, 0, 280, false, 280, List.replicate 300 0⟩ 7 rfl
     (by simp [ProtoState.pos, MAX_PACKET_LEN])⟩
